import Mathlib

/-!
Shallow embedding of the Portfolio-Performance-Tracker repository
(`src/database/database_manager.py` and `src/views/my_portfolio_view.py`),
together with the FIFO lot-tracking engine that the specification describes
but whose code is not part of the two source files.

Numeric values (prices, quantities, money) are modelled as `ℚ`; dates and
row ids as `ℕ`.  SQLite rows live in Lean lists kept in rowid (insertion)
order; `ORDER BY date` over a rowid-ordered scan is modelled as a stable
sort by date.
-/

namespace PortfolioTracker

/-! ## Data model of the SQLite tables used by `database_manager.py` -/

/-- A row of the `stocks` table (the columns the embedded queries touch).
`current_price`, `verification_status`, `name` and `drp` are nullable. -/
structure StockRow where
  id : Nat
  yahoo_symbol : String
  instrument_code : String
  name : Option String
  current_price : Option ℚ
  verification_status : Option String
  drp : Option Int
  deriving Repr, DecidableEq

/-- A row of the `transactions` table.  `original_quantity` and
`original_price` are nullable: `add_transaction` does not name them in its
INSERT, so they take the schema default (NULL — a constant column default
cannot depend on the inserted values). -/
structure TransactionRow where
  id : Nat
  stock_id : Nat
  date : Nat
  quantity : ℚ
  price : ℚ
  transaction_type : String
  original_quantity : Option ℚ
  original_price : Option ℚ
  deriving Repr, DecidableEq

/-- A row of the `stock_splits` table; `verified_source` and
`verification_date` are nullable. -/
structure SplitRow where
  id : Nat
  stock_id : Nat
  date : Nat
  ratio : ℚ
  verified_source : Option String
  verification_date : Option Nat
  deriving Repr, DecidableEq

/-- The database state the embedded `DatabaseManager` methods act on.
Lists are in rowid (insertion) order; `next_tx_id` / `next_split_id` model
SQLite's monotone rowid assignment. -/
structure DBState where
  stocks : List StockRow
  transactions : List TransactionRow
  stock_splits : List SplitRow
  portfolio_stocks : List (Nat × Nat)
  next_tx_id : Nat
  next_split_id : Nat
  deriving Repr, DecidableEq

/-- The empty database. -/
def DBState.empty : DBState :=
  { stocks := [], transactions := [], stock_splits := [],
    portfolio_stocks := [], next_tx_id := 0, next_split_id := 0 }

/-- `DatabaseManager.add_transaction`: inserts one row naming only
`stock_id, date, quantity, price, transaction_type`; the columns not named
in the INSERT (`original_quantity`, `original_price`) take the schema
default NULL. -/
def add_transaction (db : DBState) (stock_id date : Nat) (quantity price : ℚ)
    (transaction_type : String) : DBState :=
  { db with
    transactions := db.transactions ++
      [{ id := db.next_tx_id, stock_id := stock_id, date := date,
         quantity := quantity, price := price,
         transaction_type := transaction_type,
         original_quantity := none, original_price := none }],
    next_tx_id := db.next_tx_id + 1 }

/-- Input tuple of `bulk_insert_transactions`:
`(stock_id, date, quantity, price, type, original_quantity, original_price)`. -/
structure TxTuple where
  stock_id : Nat
  date : Nat
  quantity : ℚ
  price : ℚ
  transaction_type : String
  original_quantity : ℚ
  original_price : ℚ
  deriving Repr, DecidableEq

/-- `DatabaseManager.bulk_insert_transactions`: executemany of an INSERT
naming all seven columns, so the original fields are stored as given. -/
def bulk_insert_transactions (db : DBState) (txs : List TxTuple) : DBState :=
  txs.foldl
    (fun st t =>
      { st with
        transactions := st.transactions ++
          [{ id := st.next_tx_id, stock_id := t.stock_id, date := t.date,
             quantity := t.quantity, price := t.price,
             transaction_type := t.transaction_type,
             original_quantity := some t.original_quantity,
             original_price := some t.original_price }],
        next_tx_id := st.next_tx_id + 1 })
    db

/-- `DatabaseManager.add_stock_split`: a bare INSERT of
`(stock_id, date, ratio)`; the method performs no validation of the ratio
and no duplicate-date check before inserting. -/
def add_stock_split (db : DBState) (stock_id date : Nat) (ratio : ℚ) : DBState :=
  { db with
    stock_splits := db.stock_splits ++
      [{ id := db.next_split_id, stock_id := stock_id, date := date,
         ratio := ratio, verified_source := none, verification_date := none }],
    next_split_id := db.next_split_id + 1 }

/-- Stable insertion of a row into a date-sorted list: the new row goes
after every already-present row whose date is ≤ its own. -/
def insertByDate (t : TransactionRow) : List TransactionRow → List TransactionRow
  | [] => [t]
  | b :: l => if b.date ≤ t.date then b :: insertByDate t l else t :: b :: l

/-- Stable sort by date of a list scanned in rowid order: each row is
inserted after the earlier-scanned rows of the same date. -/
def sortByDateStable (l : List TransactionRow) : List TransactionRow :=
  l.foldl (fun acc t => insertByDate t acc) []

/-- `DatabaseManager.get_transactions_for_stock`:
`SELECT ... FROM transactions WHERE stock_id = ? ORDER BY date`.
The table is scanned in rowid order and `ORDER BY date` is modelled as a
stable sort by date over that scan. -/
def get_transactions_for_stock (db : DBState) (stock_id : Nat) : List TransactionRow :=
  sortByDateStable (db.transactions.filter (fun t => t.stock_id == stock_id))

/-- `DatabaseManager.get_stocks_for_portfolio` (the returned
`final_result` query): stocks joined to `portfolio_stocks` on the given
portfolio id, kept only when `verification_status = 'Verified'` and
`current_price IS NOT NULL`. -/
def get_stocks_for_portfolio (db : DBState) (portfolio_id : Nat) : List StockRow :=
  db.stocks.filter fun s =>
    decide ((portfolio_id, s.id) ∈ db.portfolio_stocks) &&
    decide (s.verification_status = some "Verified") &&
    s.current_price.isSome

/-- `DatabaseManager.get_stock_drp`:
`bool(result[0]) if result and result[0] is not None else False`.
Python's `bool` on an integer is "nonzero". -/
def get_stock_drp (db : DBState) (stock_id : Nat) : Bool :=
  match db.stocks.find? (fun s => s.id == stock_id) with
  | none => false
  | some s =>
    match s.drp with
    | none => false
    | some v => v != 0

/-! ## View model: `MyPortfolioView.update_portfolio` -/

/-- The metrics dictionary attached to a stock (`stock.latest_metrics`),
with the keys `update_portfolio` reads via `metrics.get(key, 0)`. -/
structure StockMetrics where
  total_shares_owned : ℚ
  current_cost_basis : ℚ
  market_value : ℚ
  realised_pl : ℚ
  cash_dividends_total : ℚ
  drp_shares_total : ℚ
  total_return : ℚ
  total_return_pct : ℚ
  cumulative_return_pct : ℚ
  deriving Repr, DecidableEq

/-- A stock as the view sees it.  `latest_metrics = none` models a falsy
`stock.latest_metrics` (the row's `metrics.get` then raises inside the
`try` block).  `converted_price` is the result of the external
`stock.get_converted_price()`; `current_price` is `stock.current_price`.
`render_fails` models an exception raised by one of the external calls
(Qt item construction, `get_converted_price`) inside the per-row `try`
block before the running totals are updated. -/
structure StockView where
  name : String
  yahoo_symbol : String
  current_price : ℚ
  converted_price : ℚ
  latest_metrics : Option StockMetrics
  render_fails : Bool
  deriving Repr, DecidableEq

/-- The cells of one table row as `update_portfolio` fills them for a
stock whose metrics are present; `none` means the cell is left unset
(the code only sets it under a condition). -/
structure RowCells where
  nameCell : String
  symbolCell : String
  sharesCell : ℚ
  priceCell : ℚ
  costBasisCell : ℚ
  marketValueCell : ℚ
  realisedPlCell : Option ℚ
  cashDividendsCell : Option ℚ
  drpSharesCell : Option ℚ
  drpValueCell : Option ℚ
  totalReturnCell : Option ℚ
  totalReturnPctCell : ℚ
  cumulativeReturnPctCell : ℚ
  deriving Repr, DecidableEq

/-- The per-row rendering of `update_portfolio` (lines 236–306) for a
stock with metrics `m`: conditional cells follow the code's guards; the
DRP value cell uses `stock.current_price`, the price column uses
`stock.get_converted_price()`. -/
def renderRow (s : StockView) (m : StockMetrics) : RowCells :=
  { nameCell := s.name
    symbolCell := s.yahoo_symbol
    sharesCell := m.total_shares_owned
    priceCell := s.converted_price
    costBasisCell := m.current_cost_basis
    marketValueCell := m.market_value
    realisedPlCell := if m.realised_pl ≠ 0 then some m.realised_pl else none
    cashDividendsCell :=
      if m.cash_dividends_total > 0 then some m.cash_dividends_total else none
    drpSharesCell :=
      if m.drp_shares_total > 0 then some m.drp_shares_total else none
    drpValueCell :=
      if m.drp_shares_total > 0 then some (m.drp_shares_total * s.current_price)
      else none
    totalReturnCell :=
      if |m.total_return| > 1/1000 then some m.total_return else none
    totalReturnPctCell := m.total_return_pct
    cumulativeReturnPctCell := m.cumulative_return_pct }

/-- What one row adds to the running totals
`(total_value, total_cost_basis, total_return)`: `none` when the row's
`try` block raises before the totals are updated — either because
`latest_metrics` is `None` (`metrics.get` raises `AttributeError`) or an
external rendering call fails; the `except` clause then `continue`s and
the stock contributes nothing. -/
def rowContribution (s : StockView) : Option (ℚ × ℚ × ℚ) :=
  if s.render_fails then none
  else s.latest_metrics.map fun m =>
    (m.market_value, m.current_cost_basis, m.total_return)

/-- The portfolio summary labels.  `init_ui` starts them at
"$0.00" / "0.00%": all zero. -/
structure PortfolioLabels where
  value : ℚ
  cost_basis : ℚ
  pl_dollar : ℚ
  pl_percent : ℚ
  deriving Repr, DecidableEq

/-- The labels as `init_ui` creates them. -/
def initLabels : PortfolioLabels :=
  { value := 0, cost_basis := 0, pl_dollar := 0, pl_percent := 0 }

/-- One step of the totals loop in `update_portfolio`. -/
def totalsStep (acc : ℚ × ℚ × ℚ) (s : StockView) : ℚ × ℚ × ℚ :=
  match rowContribution s with
  | none => acc
  | some (mv, cb, tr) => (acc.1 + mv, acc.2.1 + cb, acc.2.2 + tr)

/-- The running totals of `update_portfolio` over the portfolio's stocks. -/
def portfolioTotals (stocks : List StockView) : ℚ × ℚ × ℚ :=
  stocks.foldl totalsStep (0, 0, 0)

/-- `MyPortfolioView.update_portfolio`'s effect on the summary labels:
value, cost-basis and P/L labels are always rewritten from the totals;
the percentage label is rewritten to `total_return / total_cost_basis ×
100` only when `total_cost_basis > 0.0001`, and otherwise keeps its
previous text. -/
def update_portfolio (stocks : List StockView) (prev : PortfolioLabels) :
    PortfolioLabels :=
  let t := portfolioTotals stocks
  { value := t.1
    cost_basis := t.2.1
    pl_dollar := t.2.2
    pl_percent :=
      if t.2.1 > 1/10000 then t.2.2 / t.2.1 * 100 else prev.pl_percent }

/-! ## FIFO lot tracker

The valuation engine is not part of the two source files; the Lot Tracker
is modelled from the specification (§4.2). -/

/-- Modelled from the spec: a lot — "a slice of a buy transaction not yet
fully consumed by a later sell", `{open_date, quantity_remaining,
unit_cost}`. -/
structure Lot where
  open_date : Nat
  quantity_remaining : ℚ
  unit_cost : ℚ
  deriving Repr, DecidableEq

/-- Modelled from the spec: the two transaction kinds of the engine. -/
inductive TxKind where
  | buy
  | sell
  deriving Repr, DecidableEq

/-- Modelled from the spec: an adjusted transaction as the Lot Tracker
consumes it, ordered oldest first. -/
structure EngineTx where
  date : Nat
  quantity : ℚ
  price : ℚ
  kind : TxKind
  deriving Repr, DecidableEq

/-- Modelled from the spec (§4.2, SELL processing): repeatedly take the
oldest open lot, consume `min(s, lot.quantity_remaining)` shares at that
lot's `unit_cost`, add `consumed × (sell_price − unit_cost)` to realised
P/L, reduce the lot (removing it at zero) and decrement `s`, until `s`
reaches zero; `none` signals `OversoldPosition` (open lots exhausted
while `s > 0`).  Returns the remaining lots and the realised P/L of this
sell. -/
def processSell (sell_price : ℚ) : ℚ → List Lot → Option (List Lot × ℚ)
  | s, [] => if s ≤ 0 then some ([], 0) else none
  | s, lot :: rest =>
    if s ≤ 0 then some (lot :: rest, 0)
    else
      let consumed := min s lot.quantity_remaining
      let pl := consumed * (sell_price - lot.unit_cost)
      if consumed < lot.quantity_remaining then
        some ({ lot with
                  quantity_remaining := lot.quantity_remaining - consumed }
                :: rest, pl)
      else
        match processSell sell_price (s - consumed) rest with
        | none => none
        | some (lots2, pl2) => some (lots2, pl + pl2)

/-- Modelled from the spec (§4.2): one transaction applied to the state
`(open lots oldest first, running realised P/L)`; a BUY of quantity `q`
at price `p` appends a lot `{quantity_remaining := q, unit_cost := p}`,
a SELL is matched FIFO by `processSell`. -/
def lotStep (st : List Lot × ℚ) (tx : EngineTx) : Option (List Lot × ℚ) :=
  match tx.kind with
  | TxKind.buy =>
    some (st.1 ++ [{ open_date := tx.date, quantity_remaining := tx.quantity,
                     unit_cost := tx.price }], st.2)
  | TxKind.sell =>
    match processSell tx.price tx.quantity st.1 with
    | none => none
    | some (lots2, pl) => some (lots2, st.2 + pl)

/-- Modelled from the spec (§4.2): the Lot Tracker — fold the ordered
transaction stream (oldest first) over `lotStep`, starting from no open
lots and zero realised P/L; `none` propagates `OversoldPosition`. -/
def runLotTracker (txs : List EngineTx) : Option (List Lot × ℚ) :=
  txs.foldlM lotStep ([], 0)

/-! ## Helper definitions for the statements -/

/-- The triple `(market_value, current_cost_basis, total_return)` a stock's
metrics dictionary carries (`(0,0,0)` when `latest_metrics` is absent,
matching `metrics.get(key, 0)`). -/
def metricValues (s : StockView) : ℚ × ℚ × ℚ :=
  match s.latest_metrics with
  | none => (0, 0, 0)
  | some m => (m.market_value, m.current_cost_basis, m.total_return)

/-- Strict "earlier" order on transaction rows: earlier date, or same date
and smaller rowid. -/
def dateIdLt (a b : TransactionRow) : Prop :=
  a.date < b.date ∨ (a.date = b.date ∧ a.id < b.id)

/-- The row `bulk_insert_transactions` stores for one input tuple at
rowid `n`: all seven named columns, originals as given. -/
def txRowOfTuple (n : Nat) (t : TxTuple) : TransactionRow :=
  { id := n, stock_id := t.stock_id, date := t.date, quantity := t.quantity,
    price := t.price, transaction_type := t.transaction_type,
    original_quantity := some t.original_quantity,
    original_price := some t.original_price }

/-- The rows `bulk_insert_transactions` appends, with rowids from `n`. -/
def bulkRows : Nat → List TxTuple → List TransactionRow
  | _, [] => []
  | n, t :: ts => txRowOfTuple n t :: bulkRows (n + 1) ts

/-! ## Concrete fixtures used in witnesses and counterexamples -/

/-- Metrics of a fully sold position: no shares, zero cost basis, only
realised P/L left. -/
def mZero : StockMetrics :=
  { total_shares_owned := 0, current_cost_basis := 0, market_value := 0,
    realised_pl := 5, cash_dividends_total := 0, drp_shares_total := 0,
    total_return := 5, total_return_pct := 0, cumulative_return_pct := 0 }

/-- A stock holding the fully sold position `mZero`. -/
def sZero : StockView :=
  { name := "Zed", yahoo_symbol := "ZED.AX", current_price := 4,
    converted_price := 4, latest_metrics := some mZero, render_fails := false }

/-- Metrics of a tiny position: cost basis `1/20000` (positive but below
the view's `0.0001` threshold), market value 1, consistent totals. -/
def mLow : StockMetrics :=
  { total_shares_owned := 1/2000, current_cost_basis := 1/20000,
    market_value := 1, realised_pl := 0, cash_dividends_total := 0,
    drp_shares_total := 0, total_return := 19999/20000,
    total_return_pct := 1999900, cumulative_return_pct := 0 }

/-- A stock holding the tiny position `mLow`. -/
def sLow : StockView :=
  { name := "Low", yahoo_symbol := "LOW.AX", current_price := 2000,
    converted_price := 2000, latest_metrics := some mLow,
    render_fails := false }

/-- A stock whose `latest_metrics` is `None`: its table row raises inside
the `try` block and it contributes nothing to the totals. -/
def sBad : StockView :=
  { name := "Bad", yahoo_symbol := "BAD.AX", current_price := 1,
    converted_price := 1, latest_metrics := none, render_fails := false }

/-- Metrics with a positive DRP share balance. -/
def mDrp : StockMetrics :=
  { total_shares_owned := 10, current_cost_basis := 50, market_value := 70,
    realised_pl := 0, cash_dividends_total := 0, drp_shares_total := 3,
    total_return := 20, total_return_pct := 40, cumulative_return_pct := 40 }

/-- A stock with current price 7 holding `mDrp`. -/
def sDrp : StockView :=
  { name := "Drip", yahoo_symbol := "DRP.AX", current_price := 7,
    converted_price := 7, latest_metrics := some mDrp, render_fails := false }

/-- A bulk-insert input tuple: adjusted 14 @ 1, originals 7 @ 2 (a 2-for-1
split already applied). -/
def tupOne : TxTuple :=
  { stock_id := 3, date := 4, quantity := 14, price := 1,
    transaction_type := "BUY", original_quantity := 7, original_price := 2 }

/-- A database whose `transactions` table holds three rows for stock 7:
two sharing date 5 (rowids 0 and 1) and one dated 3 (rowid 2). -/
def dbTies : DBState :=
  { stocks := [], stock_splits := [], portfolio_stocks := [],
    next_tx_id := 3, next_split_id := 0,
    transactions :=
      [ { id := 0, stock_id := 7, date := 5, quantity := 10, price := 2,
          transaction_type := "BUY", original_quantity := none,
          original_price := none },
        { id := 1, stock_id := 7, date := 5, quantity := 4, price := 3,
          transaction_type := "SELL", original_quantity := none,
          original_price := none },
        { id := 2, stock_id := 7, date := 3, quantity := 1, price := 1,
          transaction_type := "BUY", original_quantity := none,
          original_price := none } ] }

/-! ## Helper lemmas -/

/-- A stock whose row raises (external failure or absent metrics)
contributes nothing to the running totals. -/
theorem rowContribution_eq_none {s : StockView}
    (h : s.render_fails = true ∨ s.latest_metrics = none) :
    rowContribution s = none := by
  rcases h with h | h
  · simp [rowContribution, h]
  · simp [rowContribution, h]

/-- A stock whose row succeeds contributes exactly its metric values. -/
theorem rowContribution_eq_some {s : StockView}
    (h1 : s.render_fails = false) (h2 : s.latest_metrics.isSome) :
    rowContribution s = some (metricValues s) := by
  rcases ho : s.latest_metrics with _ | m
  · rw [ho] at h2; simp at h2
  · simp [rowContribution, metricValues, h1, ho]

/-- The totals fold, when every row succeeds, adds the componentwise sums
of the metric values to the accumulator. -/
theorem foldl_totalsStep_eq_sums :
    ∀ (stocks : List StockView),
      (∀ s ∈ stocks, s.render_fails = false ∧ s.latest_metrics.isSome) →
      ∀ acc : ℚ × ℚ × ℚ,
        stocks.foldl totalsStep acc =
          (acc.1 + (stocks.map (fun s => (metricValues s).1)).sum,
           acc.2.1 + (stocks.map (fun s => (metricValues s).2.1)).sum,
           acc.2.2 + (stocks.map (fun s => (metricValues s).2.2)).sum)
  | [], _, acc => by simp
  | s :: rest, h, acc => by
    have hs := h s (List.mem_cons_self s rest)
    have hrest : ∀ u ∈ rest, u.render_fails = false ∧ u.latest_metrics.isSome :=
      fun u hu => h u (List.mem_cons_of_mem s hu)
    have hstep : totalsStep acc s =
        (acc.1 + (metricValues s).1, acc.2.1 + (metricValues s).2.1,
         acc.2.2 + (metricValues s).2.2) := by
      simp [totalsStep, rowContribution_eq_some hs.1 hs.2]
    rw [List.foldl_cons, hstep, foldl_totalsStep_eq_sums rest hrest]
    simp [Prod.ext_iff]
    refine ⟨by ring, by ring, by ring⟩

/-- Inserting a row into a list permutes consing it on. -/
theorem insertByDate_perm (t : TransactionRow) :
    ∀ l : List TransactionRow, (insertByDate t l).Perm (t :: l)
  | [] => List.Perm.refl _
  | b :: l => by
    simp only [insertByDate]
    split
    · exact ((insertByDate_perm t l).cons b).trans (List.Perm.swap t b l)
    · exact List.Perm.refl _

/-- Membership after a stable insertion. -/
theorem mem_insertByDate {a t : TransactionRow} {l : List TransactionRow} :
    a ∈ insertByDate t l ↔ a = t ∨ a ∈ l := by
  rw [(insertByDate_perm t l).mem_iff, List.mem_cons]

/-- `dateIdLt` implies the dates are weakly ordered. -/
theorem dateIdLt_date_le {a b : TransactionRow} (h : dateIdLt a b) :
    a.date ≤ b.date := by
  rcases h with h | ⟨h, _⟩
  · exact Nat.le_of_lt h
  · exact Nat.le_of_eq h

/-- Stable insertion of a row with a fresh (larger) rowid preserves
sortedness by `(date, id)`. -/
theorem insertByDate_pairwise (t : TransactionRow) :
    ∀ l : List TransactionRow, l.Pairwise dateIdLt →
      (∀ b ∈ l, b.id < t.id) → (insertByDate t l).Pairwise dateIdLt
  | [], _, _ => by simp [insertByDate, dateIdLt]
  | b :: l, hp, hid => by
    rw [List.pairwise_cons] at hp
    obtain ⟨hb, hl⟩ := hp
    simp only [insertByDate]
    split
    case isTrue hble =>
      rw [List.pairwise_cons]
      refine ⟨?_, insertByDate_pairwise t l hl
        (fun c hc => hid c (List.mem_cons_of_mem b hc))⟩
      intro c hc
      rcases mem_insertByDate.1 hc with rfl | hcl
      · rcases Nat.lt_or_ge b.date c.date with hlt | hge
        · exact Or.inl hlt
        · exact Or.inr ⟨Nat.le_antisymm hble hge,
            hid b (List.mem_cons_self b l)⟩
      · exact hb c hcl
    case isFalse hgt =>
      rw [List.pairwise_cons]
      refine ⟨?_, List.pairwise_cons.2 ⟨hb, hl⟩⟩
      intro c hc
      rcases List.mem_cons.1 hc with rfl | hcl
      · exact Or.inl (Nat.lt_of_not_le hgt)
      · exact Or.inl (Nat.lt_of_lt_of_le (Nat.lt_of_not_le hgt)
          (dateIdLt_date_le (hb c hcl)))

/-- The stable-sort fold permutes appending the input to the accumulator. -/
theorem foldl_insertByDate_perm :
    ∀ (l acc : List TransactionRow),
      (l.foldl (fun a t => insertByDate t a) acc).Perm (acc ++ l)
  | [], acc => by simp
  | t :: l, acc => by
    rw [List.foldl_cons]
    exact (foldl_insertByDate_perm l (insertByDate t acc)).trans
      (((insertByDate_perm t acc).append_right l).trans List.perm_middle.symm)

/-- The stable-sort fold yields a `(date, id)`-sorted list when the input
rows arrive with strictly increasing rowids all above the accumulator's. -/
theorem foldl_insertByDate_pairwise :
    ∀ (l acc : List TransactionRow), acc.Pairwise dateIdLt →
      (∀ b ∈ acc, ∀ t ∈ l, b.id < t.id) →
      l.Pairwise (fun a b => a.id < b.id) →
      (l.foldl (fun a t => insertByDate t a) acc).Pairwise dateIdLt
  | [], acc, hacc, _, _ => by simpa using hacc
  | t :: l, acc, hacc, hcross, hl => by
    rw [List.foldl_cons]
    rw [List.pairwise_cons] at hl
    apply foldl_insertByDate_pairwise l (insertByDate t acc)
    · exact insertByDate_pairwise t acc hacc
        (fun b hb => hcross b hb t (List.mem_cons_self t l))
    · intro b hb u hu
      rcases mem_insertByDate.1 hb with rfl | hba
      · exact hl.1 u hu
      · exact hcross b hba u (List.mem_cons_of_mem t hu)
    · exact hl.2

/-- `bulk_insert_transactions` appends exactly the rows built from its
tuples, with rowids continuing from `next_tx_id`. -/
theorem bulk_insert_transactions_eq :
    ∀ (txs : List TxTuple) (db : DBState),
      (bulk_insert_transactions db txs).transactions =
        db.transactions ++ bulkRows db.next_tx_id txs
  | [], db => by simp [bulk_insert_transactions, bulkRows]
  | t :: ts, db => by
    show (bulk_insert_transactions _ ts).transactions = _
    rw [bulk_insert_transactions_eq ts]
    simp [bulkRows, txRowOfTuple]

/-- Every row `bulk_insert_transactions` builds keeps the caller-supplied
original quantity and price. -/
theorem mem_bulkRows_originals :
    ∀ (txs : List TxTuple) (n : Nat) (r : TransactionRow),
      r ∈ bulkRows n txs → ∃ t ∈ txs,
        r.original_quantity = some t.original_quantity ∧
        r.original_price = some t.original_price
  | [], _, r, h => by simp [bulkRows] at h
  | t :: ts, n, r, h => by
    rw [bulkRows, List.mem_cons] at h
    rcases h with rfl | h
    · exact ⟨t, List.mem_cons_self t ts, rfl, rfl⟩
    · obtain ⟨u, hu, hq, hp⟩ := mem_bulkRows_originals ts (n + 1) r h
      exact ⟨u, List.mem_cons_of_mem t hu, hq, hp⟩

/-! ## Claim theorems -/

/-- C1 (counterexample): the claim "zero summed cost basis implies the
displayed total return percentage is zero" fails on the code: updating
with a single fully-sold stock (cost basis 0) after the label previously
showed 50% leaves the label at 50, not 0 — the code skips the update
instead of writing a zero. -/
theorem update_portfolio_zero_cb_label_not_zero :
    (update_portfolio [sZero]
        { value := 100, cost_basis := 50, pl_dollar := 10,
          pl_percent := 50 }).cost_basis = 0 ∧
    (update_portfolio [sZero]
        { value := 100, cost_basis := 50, pl_dollar := 10,
          pl_percent := 50 }).pl_percent ≠ 0 := by
  norm_num [update_portfolio, portfolioTotals, totalsStep, rowContribution,
    sZero, mZero]

/-- C1 (amended): when the summed current cost basis is zero, no division
is performed and the percentage label keeps its previous value — which is
zero in a freshly initialised view, so the display shows 0% there; the
quotient is computed only when the cost basis exceeds 0.0001 (hence only
when it is positive). -/
theorem update_portfolio_zero_cb_guard (stocks : List StockView)
    (prev : PortfolioLabels) (h : (portfolioTotals stocks).2.1 = 0) :
    (update_portfolio stocks prev).pl_percent = prev.pl_percent ∧
    (update_portfolio stocks initLabels).pl_percent = 0 := by
  constructor <;> · simp only [update_portfolio, h]; norm_num [initLabels]

/-- C1 (witness): the guard theorem applied to the empty stock list. -/
theorem update_portfolio_zero_cb_guard_witness :
    (update_portfolio []
        { value := 1, cost_basis := 2, pl_dollar := 3,
          pl_percent := 4 }).pl_percent = 4 ∧
    (update_portfolio [] initLabels).pl_percent = 0 :=
  update_portfolio_zero_cb_guard []
    { value := 1, cost_basis := 2, pl_dollar := 3, pl_percent := 4 }
    (by simp [portfolioTotals])

/-- C2 (counterexample): with one stock of positive summed cost basis
`1/20000` (below the view's `0.0001` threshold) the displayed percentage
is not `total_return / cost_basis × 100` — the label keeps its previous
value, so the claimed equality fails at a positive cost basis the
zero-guard does not cover. -/
theorem update_portfolio_pct_not_quotient :
    (update_portfolio [sLow] initLabels).cost_basis ≠ 0 ∧
    (update_portfolio [sLow] initLabels).pl_percent ≠
      (update_portfolio [sLow] initLabels).pl_dollar /
        (update_portfolio [sLow] initLabels).cost_basis * 100 := by
  norm_num [update_portfolio, portfolioTotals, totalsStep, rowContribution,
    sLow, mLow, initLabels]

/-- C2 (amended): when every stock's row succeeds, the portfolio totals
are exactly the componentwise sums of the per-stock `market_value`,
`current_cost_basis` and `total_return`, and the percentage label equals
the summed return over the summed cost basis times 100 whenever that sum
exceeds 0.0001, keeping its previous value otherwise. -/
theorem update_portfolio_sums (stocks : List StockView)
    (prev : PortfolioLabels)
    (h : ∀ s ∈ stocks, s.render_fails = false ∧ s.latest_metrics.isSome) :
    update_portfolio stocks prev =
      { value := (stocks.map (fun s => (metricValues s).1)).sum
        cost_basis := (stocks.map (fun s => (metricValues s).2.1)).sum
        pl_dollar := (stocks.map (fun s => (metricValues s).2.2)).sum
        pl_percent :=
          if (stocks.map (fun s => (metricValues s).2.1)).sum > 1/10000 then
            (stocks.map (fun s => (metricValues s).2.2)).sum /
              (stocks.map (fun s => (metricValues s).2.1)).sum * 100
          else prev.pl_percent } := by
  simp only [update_portfolio, portfolioTotals,
    foldl_totalsStep_eq_sums stocks h (0, 0, 0), zero_add]

/-- C2 (witness): the aggregation theorem applied to the two-stock
portfolio `[sZero, sDrp]`. -/
theorem update_portfolio_sums_witness :
    update_portfolio [sZero, sDrp] initLabels =
      { value := ([sZero, sDrp].map (fun s => (metricValues s).1)).sum
        cost_basis := ([sZero, sDrp].map (fun s => (metricValues s).2.1)).sum
        pl_dollar := ([sZero, sDrp].map (fun s => (metricValues s).2.2)).sum
        pl_percent :=
          if ([sZero, sDrp].map (fun s => (metricValues s).2.1)).sum > 1/10000
          then ([sZero, sDrp].map (fun s => (metricValues s).2.2)).sum /
              ([sZero, sDrp].map (fun s => (metricValues s).2.1)).sum * 100
          else initLabels.pl_percent } :=
  update_portfolio_sums [sZero, sDrp] initLabels
    (by intro s hs
        simp only [List.mem_cons, List.not_mem_nil, or_false] at hs
        rcases hs with rfl | rfl <;> exact ⟨rfl, rfl⟩)

/-- C3: the FIFO Lot Tracker on Buy 50 @ 20 (day 1), Buy 50 @ 30 (day 2),
Sell 60 @ 25 (day 3) consumes the oldest lot first: realised P/L is
`50×5 + 10×(−5) = 200` and one open lot of 40 shares @ 30 remains. -/
theorem runLotTracker_fifo_scenario :
    runLotTracker
        [ { date := 1, quantity := 50, price := 20, kind := TxKind.buy },
          { date := 2, quantity := 50, price := 30, kind := TxKind.buy },
          { date := 3, quantity := 60, price := 25, kind := TxKind.sell } ] =
      some ([{ open_date := 2, quantity_remaining := 40, unit_cost := 30 }],
        200) := by
  simp [runLotTracker, lotStep, processSell]
  norm_num

/-- C4: a stock whose row computation fails — an external rendering call
raises or `latest_metrics` is absent — is skipped by the `except/continue`
clause: the portfolio update still processes every other stock and
produces the same totals as if the failing stock were not there. -/
theorem update_portfolio_skips_failing_stock (xs ys : List StockView)
    (bad : StockView) (prev : PortfolioLabels)
    (h : bad.render_fails = true ∨ bad.latest_metrics = none) :
    update_portfolio (xs ++ bad :: ys) prev = update_portfolio (xs ++ ys) prev := by
  have hc : rowContribution bad = none := rowContribution_eq_none h
  simp only [update_portfolio, portfolioTotals, List.foldl_append,
    List.foldl_cons]
  have hstep : totalsStep (List.foldl totalsStep (0, 0, 0) xs) bad =
      List.foldl totalsStep (0, 0, 0) xs := by
    simp [totalsStep, hc]
  rw [hstep]

/-- C4 (witness): a metrics-less stock between two good stocks changes
nothing. -/
theorem update_portfolio_skips_failing_stock_witness :
    update_portfolio [sLow, sBad, sZero] initLabels =
      update_portfolio [sLow, sZero] initLabels :=
  update_portfolio_skips_failing_stock [sLow] [sZero] sBad initLabels
    (Or.inr rfl)

/-- C5 (counterexample): inserting a split with ratio 0 (≤ 0) is NOT
rejected: `add_stock_split` stores it, so the split set changes and no
`InvalidSplit` failure occurs — the claim fails on the code. -/
theorem add_stock_split_accepts_nonpositive_ratio :
    (add_stock_split DBState.empty 1 5 0).stock_splits =
      [{ id := 0, stock_id := 1, date := 5, ratio := 0,
         verified_source := none, verification_date := none }] ∧
    (add_stock_split DBState.empty 1 5 0).stock_splits ≠
      DBState.empty.stock_splits := by
  constructor
  · rfl
  · simp [add_stock_split, DBState.empty]

/-- C5 (amended): `add_stock_split` performs no validation at the point
of insertion: every split — any ratio, including ≤ 0, and any date,
including one duplicating an existing split — is appended unconditionally
to the stored split set, with no error and nothing else touched. -/
theorem add_stock_split_unconditional (db : DBState) (sid d : Nat) (r : ℚ) :
    (add_stock_split db sid d r).stock_splits =
      db.stock_splits ++
        [{ id := db.next_split_id, stock_id := sid, date := d, ratio := r,
           verified_source := none, verification_date := none }] ∧
    (add_stock_split db sid d r).transactions = db.transactions ∧
    (add_stock_split db sid d r).stocks = db.stocks := by
  exact ⟨rfl, rfl, rfl⟩

/-- C6 (counterexample): a transaction created through `add_transaction`
does NOT preserve the entered values in `original_quantity` /
`original_price`: the INSERT names neither column, so the stored row
holds NULL there, not quantity 10 and price 5. -/
theorem add_transaction_drops_originals :
    (add_transaction DBState.empty 1 2 10 5 "BUY").transactions =
      [{ id := 0, stock_id := 1, date := 2, quantity := 10, price := 5,
         transaction_type := "BUY", original_quantity := none,
         original_price := none }] ∧
    (add_transaction DBState.empty 1 2 10 5 "BUY").transactions.map
        TransactionRow.original_quantity ≠ [some 10] := by
  constructor
  · rfl
  · simp [add_transaction, DBState.empty]

/-- C6 (amended): `bulk_insert_transactions` stores the caller-supplied
`original_quantity` / `original_price` unchanged; `add_transaction`
instead stores NULL originals; both only append — existing transaction
rows are never modified — and `add_stock_split` leaves the transactions
table untouched. -/
theorem transaction_persistence_originals (db : DBState)
    (txs : List TxTuple) (sid d : Nat) (q p r : ℚ) (ty : String) :
    (add_transaction db sid d q p ty).transactions =
      db.transactions ++
        [{ id := db.next_tx_id, stock_id := sid, date := d, quantity := q,
           price := p, transaction_type := ty, original_quantity := none,
           original_price := none }] ∧
    (bulk_insert_transactions db txs).transactions =
      db.transactions ++ bulkRows db.next_tx_id txs ∧
    (∀ t ∈ bulkRows db.next_tx_id txs, ∃ u ∈ txs,
        t.original_quantity = some u.original_quantity ∧
        t.original_price = some u.original_price) ∧
    (add_stock_split db sid d r).transactions = db.transactions := by
  refine ⟨rfl, bulk_insert_transactions_eq txs db, ?_, rfl⟩
  exact fun t ht => mem_bulkRows_originals txs db.next_tx_id t ht

/-- C6 (witness): the amended persistence theorem at a concrete database
and a one-tuple bulk insert. -/
theorem transaction_persistence_originals_witness :
    (add_transaction DBState.empty 3 4 7 2 "BUY").transactions =
      DBState.empty.transactions ++
        [{ id := 0, stock_id := 3, date := 4, quantity := 7, price := 2,
           transaction_type := "BUY", original_quantity := none,
           original_price := none }] ∧
    (bulk_insert_transactions DBState.empty [tupOne]).transactions =
      DBState.empty.transactions ++
        bulkRows DBState.empty.next_tx_id [tupOne] ∧
    (∀ t ∈ bulkRows DBState.empty.next_tx_id [tupOne], ∃ u ∈ [tupOne],
        t.original_quantity = some u.original_quantity ∧
        t.original_price = some u.original_price) ∧
    (add_stock_split DBState.empty 3 4 2).transactions =
      DBState.empty.transactions :=
  transaction_persistence_originals DBState.empty [tupOne] 3 4 7 2 2 "BUY"

/-- C7: `get_transactions_for_stock` returns exactly the stock's
transactions (a permutation of the rowid-ordered filter), sorted
ascending by date with same-date rows in rowid (insertion) order — given
that the table's rowids increase in scan order, as SQLite maintains. -/
theorem get_transactions_for_stock_sorted (db : DBState) (sid : Nat)
    (h : db.transactions.Pairwise (fun a b => a.id < b.id)) :
    (get_transactions_for_stock db sid).Perm
        (db.transactions.filter (fun t => t.stock_id == sid)) ∧
    (get_transactions_for_stock db sid).Pairwise dateIdLt := by
  constructor
  · exact (foldl_insertByDate_perm _ []).trans (by simp)
  · exact foldl_insertByDate_pairwise _ [] (by simp) (by simp)
      (List.Pairwise.sublist (List.filter_sublist _) h)

/-- C7 (witness): the ordering theorem on a table with two rows sharing a
date. -/
theorem get_transactions_for_stock_sorted_witness :
    (get_transactions_for_stock dbTies 7).Perm
        (dbTies.transactions.filter (fun t => t.stock_id == 7)) ∧
    (get_transactions_for_stock dbTies 7).Pairwise dateIdLt :=
  get_transactions_for_stock_sorted dbTies 7
    (by simp [dbTies, List.pairwise_cons])

/-- C8: whenever `drp_shares_total > 0`, the DRP value cell the view
renders equals `drp_shares_total × stock.current_price` — the stock's
price at valuation time, the only price the computation reads. -/
theorem renderRow_drp_value (s : StockView) (m : StockMetrics)
    (h : m.drp_shares_total > 0) :
    (renderRow s m).drpValueCell = some (m.drp_shares_total * s.current_price) := by
  simp [renderRow, h]

/-- C8 (witness): the DRP value cell for 3 DRP shares at price 7. -/
theorem renderRow_drp_value_witness :
    (renderRow sDrp mDrp).drpValueCell =
      some (mDrp.drp_shares_total * sDrp.current_price) :=
  renderRow_drp_value sDrp mDrp (by norm_num [mDrp])

/-- C9: the stock listing used for portfolio valuation returns exactly
the portfolio's stocks whose `verification_status` is `'Verified'` and
whose `current_price` is non-null; a stock failing either condition is
excluded (no error — it is simply absent from the result). -/
theorem mem_get_stocks_for_portfolio (db : DBState) (pid : Nat)
    (s : StockRow) :
    s ∈ get_stocks_for_portfolio db pid ↔
      s ∈ db.stocks ∧ (pid, s.id) ∈ db.portfolio_stocks ∧
        s.verification_status = some "Verified" ∧
        s.current_price ≠ none := by
  simp [get_stocks_for_portfolio, List.mem_filter, and_assoc,
    Option.isSome_iff_ne_none]

/-- C10: `get_stock_drp` is a total Boolean query: it returns `False`
both when no stocks row exists for the id and when the stored `drp`
field is NULL (and a Boolean in every other case — it never raises and
never returns null). -/
theorem get_stock_drp_false_on_missing (db : DBState) (sid : Nat)
    (h : db.stocks.find? (fun s => s.id == sid) = none ∨
         ∃ s, db.stocks.find? (fun s => s.id == sid) = some s ∧
           s.drp = none) :
    get_stock_drp db sid = false := by
  rcases h with h | ⟨s, hs, hd⟩
  · simp [get_stock_drp, h]
  · simp [get_stock_drp, hs, hd]

/-- C10 (witness): the query on an empty database returns `False`. -/
theorem get_stock_drp_false_on_missing_witness :
    get_stock_drp DBState.empty 3 = false :=
  get_stock_drp_false_on_missing DBState.empty 3 (Or.inl rfl)

end PortfolioTracker
